import Mathlib

/-!
Verification of the CvManager backend authorization and project-management
core against its design specification.

The definitions below are a shallow embedding of the JavaScript sources:

* `src/app/http/controllers/project.controller.js` — the project controller
  (`create`, `active`, `deActive`, `manager`, `deleteManager`, `find`);
* `src/unnamed/part_001` — the route table that orders the middleware chain
  (`verifyToken`, `canAccess`, `projectAccess`) ahead of each handler.

Mongoose documents become Lean structures, the document store becomes a `DB`
record of lists, thrown exceptions become `Except` errors, and the ordered
side effects of a handler (database writes and domain-event emissions) are
recorded as an explicit trace of `Op` values in program order.

Code of the repository that the claims need but that is not among the source
files (the rbac / projectAccess middlewares, the route validators and the
Manager model schema) is modelled from the specification; every such
definition carries a doc comment starting with `Modelled from the spec:`.
-/

/-- Exception classes thrown by the controllers
(`src/app/exceptions/NotFoundError.js`, `BadRequestError.js`,
`AlreadyExists.js`, and the Forbidden outcome of the access middlewares).
Each carries the message / reason string used at the throw site. -/
inductive AppError where
  | NotFoundError (message : String)
  | BadRequestError (message : String)
  | AlreadyExists (message : String)
  | ForbiddenError (reason : String)
deriving DecidableEq, Repr

/-- One observable side effect of a handler, recorded in program order:
a database write or a domain-event emission (`EventEmitter.emit`). -/
inductive Op where
  | emit (event : String)
  | dbWrite (desc : String)
deriving DecidableEq, Repr

/-- A company document (`company.model.js` fields used by the controller:
`_id`, `is_active`, and the soft-delete flag added by the base plugin). -/
structure Company where
  id : String
  is_active : Bool
  deleted : Bool
deriving DecidableEq, Repr

/-- A project document (`project.model.js` fields used by the controller). -/
structure Project where
  id : String
  name : String
  company_id : String
  is_active : Bool
  created_by : String
  deleted : Bool
deriving DecidableEq, Repr

/-- A manager-assignment document (`manager.model.js`): the polymorphic
association `(entity, entity_id, user_id, type)` with `entity` ∈
{"companies", "projects"} and `type` ∈ {"owner", "manager"}. -/
structure ManagerAssignment where
  entity : String
  entity_id : String
  user_id : String
  type : String
  created_by : String
deriving DecidableEq, Repr

/-- The document store: each collection as a list, most recent first for
`managers` (insertion conses).  `users` holds only the user ids, the sole
field the project controller reads from a user document. -/
structure DB where
  companies : List Company
  projects : List Project
  managers : List ManagerAssignment
  users : List String
deriving DecidableEq, Repr

/-- `Project.findById(id)` with the soft-delete plugin: the first project
whose id matches and that is not marked deleted. -/
def Project.findById (db : DB) (id : String) : Option Project :=
  db.projects.find? (fun p => p.id == id && !p.deleted)

/-- `Company.findOne({_id: id})` with the soft-delete plugin. -/
def Company.findOneById (db : DB) (id : String) : Option Company :=
  db.companies.find? (fun c => c.id == id && !c.deleted)

/-- `User.findById(id)` reduced to the only fact the controller uses:
whether the user exists. -/
def User.findById (db : DB) (id : String) : Bool :=
  db.users.contains id

/-- `Manager.findOne({entity, entity_id, user_id})`: the composite-key
lookup backing the assignment store. -/
def Manager.findOne (db : DB) (entity entity_id user_id : String) :
    Option ManagerAssignment :=
  db.managers.find? (fun m =>
    m.entity == entity && m.entity_id == entity_id && m.user_id == user_id)

/-- `project.save()` after mutating a fetched document: write the document
back over every stored project carrying its id. -/
def saveProject (db : DB) (p : Project) : DB :=
  { db with projects := db.projects.map (fun q => if q.id == p.id then p else q) }

/-- `ProjectController.create` (project.controller.js lines 99–117):
company lookup, active check, duplicate-name check, then `Project.create`
followed by `EventEmitter.emit(events.CREATE)`.  `newId` stands for the id
the store generates for the new document. -/
def projectCreate (db : DB) (newId company_id name user_id : String) :
    Except AppError (DB × List Op) :=
  match Company.findOneById db company_id with
  | none => .error (.NotFoundError "company.errors.company_notfound")
  | some company =>
    if !company.is_active then
      .error (.BadRequestError "project.errors.disabled_companey_create_project_error")
    else
      match db.projects.find? (fun q =>
          q.name == name && q.company_id == company.id && !q.deleted) with
      | some _ => .error (.AlreadyExists "project.errors.project_already_attached_company")
      | none =>
        let p : Project :=
          { id := newId, name := name, company_id := company.id,
            is_active := true, created_by := user_id, deleted := false }
        .ok ({ db with projects := db.projects ++ [p] },
             [.dbWrite "Project.create", .emit "CREATE"])

/-- `ProjectController.active` (lines 345–360): reject if already active,
otherwise set `is_active := true`, save, then emit `ACTIVE`. -/
def projectActive (db : DB) (id : String) : Except AppError (DB × List Op) :=
  match Project.findById db id with
  | none => .error (.NotFoundError "project.errors.project_not_found")
  | some project =>
    if project.is_active then
      .error (.BadRequestError "project.errors.project_activated_alredy")
    else
      .ok (saveProject db { project with is_active := true },
           [.dbWrite "project.save", .emit "ACTIVE"])

/-- `ProjectController.deActive` (lines 375–390): reject if already
inactive, otherwise set `is_active := false`, save, then emit `DEACTIVE`. -/
def projectDeActive (db : DB) (id : String) : Except AppError (DB × List Op) :=
  match Project.findById db id with
  | none => .error (.NotFoundError "project.errors.project_not_found")
  | some project =>
    if !project.is_active then
      .error (.BadRequestError "project.errors.project_deactivated_alredy")
    else
      .ok (saveProject db { project with is_active := false },
           [.dbWrite "project.save", .emit "DEACTIVE"])

/-- `ProjectController.manager` (lines 193–211): the assign operation.
Project and user must exist; a duplicate `(projects, entity_id, user_id)`
assignment is rejected with `BadRequestError`; otherwise the assignment is
created and `SET_MANAGER` is emitted after the write.  The controller sends
no `type` field, so the created document's `type` is the Manager schema
default, passed here as `schemaDefaultType` (manager.model.js is not among
the source files). -/
def projectSetManager (db : DB) (id manager_id req_user_id schemaDefaultType : String) :
    Except AppError (DB × List Op) :=
  match Project.findById db id with
  | none => .error (.NotFoundError "project.errors.project_notfound")
  | some project =>
    if !User.findById db manager_id then
      .error (.NotFoundError "user.errors.user_notfound")
    else
      match Manager.findOne db "projects" project.id manager_id with
      | some _ =>
        .error (.BadRequestError "project.errors.the_user_is_currently_an_manager_for_project")
      | none =>
        let m : ManagerAssignment :=
          { entity := "projects", entity_id := project.id, user_id := manager_id,
            type := schemaDefaultType, created_by := req_user_id }
        .ok ({ db with managers := m :: db.managers },
             [.dbWrite "Manager.create", .emit "SET_MANAGER"])

/-- `ProjectController.deleteManager` (lines 227–245): the unassign
operation.  Project and user must exist; a missing assignment is rejected
with `BadRequestError`; an assignment whose `type` is `"owner"` is rejected
with `BadRequestError`; otherwise `UNSET_MANAGER` is emitted and THEN the
assignment document is deleted — the trace records that source order
(lines 239–240). -/
def projectDeleteManager (db : DB) (id manager_id req_user_id : String) :
    Except AppError (DB × List Op) :=
  match Project.findById db id with
  | none => .error (.NotFoundError "project.errors.project_notfound")
  | some project =>
    if !User.findById db manager_id then
      .error (.NotFoundError "user.errors.user_notfound")
    else
      match Manager.findOne db "projects" project.id manager_id with
      | none =>
        .error (.BadRequestError "project.errors.the_user_is_not_an_manager_for_project")
      | some m =>
        if m.type == "owner" then
          .error (.BadRequestError "project.errors.the_owner_manager_cannot_be_deleted")
        else
          .ok ({ db with managers := db.managers.eraseP (fun x =>
                  x.entity == "projects" && x.entity_id == project.id &&
                  x.user_id == manager_id) },
               [.emit "UNSET_MANAGER", .dbWrite "manager.delete"])

/-- A global role: the set of `(resourceType, action)` pairs it grants. -/
structure Role where
  permissions : List (String × String)
deriving DecidableEq, Repr

/-- Modelled from the spec: `hasPermission(role, resourceType, action)` of the
permission catalog (rbac.middleware.js is not among the source files) — true
iff `(resourceType, action)` is in the role's permission set, or the role
holds the wildcard `manage` action for that resource type. -/
def hasPermission (r : Role) (resourceType action : String) : Bool :=
  r.permissions.contains (resourceType, action) ||
  r.permissions.contains (resourceType, "manage")

/-- Modelled from the spec: the `canAccess` role/permission gate
(rbac.middleware.js is not among the source files) — passes when the role
has the permission, otherwise halts with `ForbiddenError` reason
`role_permission_denied`. -/
def canAccess (r : Role) (resourceType action : String) : Option AppError :=
  if hasPermission r resourceType action then none
  else some (.ForbiddenError "role_permission_denied")

/-- One level of a scope chain: the entity kind and the instance id. -/
structure ScopeLevel where
  entity : String
  entity_id : String
deriving DecidableEq, Repr

/-- Modelled from the spec: the resource scope loader of the `projectAccess`
middleware (projectAccess.middleware.js is not among the source files) —
loads the project, then its parent company, producing the scope chain
`[project, company]`.  The second component logs, in order, the ids of the
resource lookups actually performed. -/
def loadProjectScope (db : DB) (id : String) :
    Except AppError (List ScopeLevel) × List String :=
  match Project.findById db id with
  | none => (.error (.NotFoundError "resource_not_found"), [id])
  | some p =>
    match Company.findOneById db p.company_id with
    | none => (.error (.NotFoundError "parent_resource_not_found"), [id, p.company_id])
    | some c => (.ok [⟨"projects", p.id⟩, ⟨"companies", c.id⟩], [id, p.company_id])

/-- The authorization pipeline for a project-scoped route, composed in the
order the route table declares the middleware (src/unnamed/part_001 lines
29–30: `verifyToken, canAccess, projectAccess`): the role/permission gate
runs first and, on denial, halts before the scope loader performs any
resource lookup. -/
def pipeline (db : DB) (r : Role) (resourceType action id : String) :
    Except AppError (List ScopeLevel) × List String :=
  match canAccess r resourceType action with
  | some e => (.error e, [])
  | none => loadProjectScope db id

/-- The strength an action requires of an assignment. -/
inductive Strength where
  | owner
  | owner_or_manager
deriving DecidableEq, Repr

/-- Modelled from the spec: whether an assignment of type `ty`, found at the
target level (`isTarget = true`) or at an ancestor level, satisfies the
required strength.  At the target, `owner` satisfies both strengths and
`manager` satisfies only `owner_or_manager`; at an ancestor, only a
company-level `owner` counts, and it satisfies only `owner_or_manager`
(company ownership never subsumes project-level `owner` strength). -/
def levelSatisfies (isTarget : Bool) (ty : String) : Strength → Bool
  | .owner => isTarget && ty == "owner"
  | .owner_or_manager => ty == "owner" || (isTarget && ty == "manager")

/-- Modelled from the spec: walk the scope chain most-specific-first; the
first level at which the principal holds an assignment determines the
decision (`some b`); `none` when no level holds an assignment. -/
def evalLevels (mgrs : List ManagerAssignment) (uid : String) (s : Strength)
    (isTarget : Bool) : List ScopeLevel → Option Bool
  | [] => none
  | l :: rest =>
    match mgrs.find? (fun m =>
        m.entity == l.entity && m.entity_id == l.entity_id && m.user_id == uid) with
    | some m => some (levelSatisfies isTarget m.type s)
    | none => evalLevels mgrs uid s false rest

/-- Modelled from the spec: the ownership/manager evaluator
(projectAccess.middleware.js / companyAccess.middleware.js are not among the
source files).  `wildcard` is whether the principal's global role carries
the `manage` wildcard for this resource type. -/
def evaluate (mgrs : List ManagerAssignment) (uid : String)
    (chain : List ScopeLevel) (s : Strength) (wildcard : Bool) :
    Except AppError Unit :=
  match evalLevels mgrs uid s true chain with
  | some true => .ok ()
  | some false => .error (.ForbiddenError "insufficient_assignment_strength")
  | none =>
    if wildcard then .ok ()
    else .error (.ForbiddenError "not_a_manager")

/-- A hexadecimal digit, as accepted in a Mongo ObjectId. -/
def isHexChar (c : Char) : Bool :=
  c.isDigit || (('a' ≤ c && c ≤ 'f') || ('A' ≤ c && c ≤ 'F'))

/-- Modelled from the spec: the identifier well-formedness check the route
validators perform before any lookup (the validator files are not among the
source files; the tests in src/unnamed/part_000 lines 112–126 pin the
behaviour) — a well-formed resource key is a 24-character hex string. -/
def isWellFormedId (s : String) : Bool :=
  s.length == 24 && s.data.all isHexChar

/-- The `GET /:id` handling as the request boundary sees it: the validator's
identifier check (modelled from the spec) ahead of
`ProjectController.find` (project.controller.js lines 69–83).  The second
component logs the ids of the lookups performed. -/
def projectFindPipeline (db : DB) (id : String) :
    Except AppError Project × List String :=
  if !isWellFormedId id then (.error (.BadRequestError "invalid_identifier"), [])
  else
    match Project.findById db id with
    | none => (.error (.NotFoundError "project.errors.project_notfound"), [id])
    | some p => (.ok p, [id])

/-- A lookup of a principal's assignment in a raw assignment list, by the
composite key `(entity, entity_id, user_id)`. -/
def findAssignment (mgrs : List ManagerAssignment) (e i u : String) :
    Option ManagerAssignment :=
  mgrs.find? (fun m => m.entity == e && m.entity_id == i && m.user_id == u)

/-- Whether an `Except` outcome is an `AlreadyExists` failure. -/
def isAlreadyExistsError {α : Type} : Except AppError α → Bool
  | .error (.AlreadyExists _) => true
  | _ => false

/-- Whether an `Except` outcome is a `NotFoundError` failure. -/
def isNotFoundError {α : Type} : Except AppError α → Bool
  | .error (.NotFoundError _) => true
  | _ => false

/-- Concrete fixture: an active, non-deleted company. -/
def fixtureCompany : Company := { id := "c1", is_active := true, deleted := false }

/-- Concrete fixture: a non-deleted project under `fixtureCompany`. -/
def fixtureProject : Project :=
  { id := "p1", name := "alpha", company_id := "c1", is_active := true,
    created_by := "u1", deleted := false }

/-- Concrete fixture: store with no manager assignments. -/
def dbBase : DB :=
  { companies := [fixtureCompany], projects := [fixtureProject],
    managers := [], users := ["u1", "u2"] }

/-- Concrete fixture: `dbBase` with a manager-type assignment of user `u2`
on project `p1`. -/
def dbWithManager : DB :=
  { companies := [fixtureCompany], projects := [fixtureProject],
    managers := [{ entity := "projects", entity_id := "p1", user_id := "u2",
                   type := "manager", created_by := "u1" }],
    users := ["u1", "u2"] }

/-- Concrete fixture: project `p1` with two distinct owner assignments. -/
def dbTwoOwners : DB :=
  { companies := [fixtureCompany], projects := [fixtureProject],
    managers := [{ entity := "projects", entity_id := "p1", user_id := "u1",
                   type := "owner", created_by := "u1" },
                 { entity := "projects", entity_id := "p1", user_id := "u2",
                   type := "owner", created_by := "u1" }],
    users := ["u1", "u2"] }

/-- Concrete fixture: empty company collection. -/
def dbNoCompany : DB :=
  { companies := [], projects := [], managers := [], users := ["u1"] }

/-- Concrete fixture: the only company is inactive. -/
def dbInactiveCompany : DB :=
  { companies := [{ id := "c1", is_active := false, deleted := false }],
    projects := [], managers := [], users := ["u1"] }

/-- A `find?` hit splits the list: every element is still in `eraseP` of the
same predicate, except possibly the found element itself. -/
theorem mem_eraseP_or_eq_of_find? {α : Type} {l : List α} {q : α → Bool}
    {a : α} (h : l.find? q = some a) :
    ∀ x ∈ l, x ∈ l.eraseP q ∨ x = a := by
  induction l with
  | nil => simp at h
  | cons b t ih =>
    intro x hx
    by_cases hb : q b = true
    · rw [List.find?_cons_of_pos _ hb] at h
      rw [List.eraseP_cons_of_pos hb]
      rcases List.mem_cons.mp hx with hxb | hxt
      · right; rw [hxb]; exact Option.some.inj h
      · left; exact hxt
    · rw [List.find?_cons_of_neg _ (by simpa using hb)] at h
      rw [List.eraseP_cons_of_neg (by simpa using hb)]
      rcases List.mem_cons.mp hx with hxb | hxt
      · left; rw [hxb]; exact List.mem_cons_self b _
      · rcases ih h x hxt with hin | heq
        · left; exact List.mem_cons_of_mem b hin
        · right; exact heq

/-- A successful `Project.findById` returns a project carrying the queried
id and not marked deleted. -/
theorem findById_spec {db : DB} {id : String} {p : Project}
    (h : Project.findById db id = some p) : p.id = id ∧ p.deleted = false := by
  have hq := List.find?_some h
  simp only [Bool.and_eq_true, beq_iff_eq, Bool.not_eq_true'] at hq
  exact hq

/-- C1: when the principal's role lacks the requested (resourceType, action)
permission, the project pipeline halts at the role/permission gate with
`ForbiddenError` and performs no resource lookup at all — an unpermitted
principal can never observe `NotFoundError`. -/
theorem C1_gate_runs_before_loader (db : DB) (r : Role)
    (resourceType action id : String)
    (h : hasPermission r resourceType action = false) :
    pipeline db r resourceType action id =
      (.error (.ForbiddenError "role_permission_denied"), []) := by
  unfold pipeline canAccess
  rw [h]
  simp

theorem C1_gate_runs_before_loader_witness :
    hasPermission { permissions := [("company", "read")] } "project" "delete" = false ∧
    pipeline dbBase { permissions := [("company", "read")] } "project" "delete" "p1" =
      (.error (.ForbiddenError "role_permission_denied"), []) :=
  ⟨by decide,
   C1_gate_runs_before_loader dbBase { permissions := [("company", "read")] }
     "project" "delete" "p1" (by decide)⟩

/-- C8: a malformed path identifier fails `BadRequestError` before any
lookup is attempted (the lookup log stays empty); a well-formed identifier
matching no non-deleted project fails `NotFoundError`. -/
theorem C8_validator_before_lookup (db : DB) (id : String) :
    (isWellFormedId id = false →
      projectFindPipeline db id =
        (.error (.BadRequestError "invalid_identifier"), [])) ∧
    (isWellFormedId id = true → Project.findById db id = none →
      projectFindPipeline db id =
        (.error (.NotFoundError "project.errors.project_notfound"), [id])) := by
  constructor
  · intro h
    unfold projectFindPipeline
    rw [h]
    simp
  · intro h hnone
    unfold projectFindPipeline
    rw [h, hnone]
    simp

theorem C8_validator_before_lookup_witness :
    (isWellFormedId "fakeID" = false ∧
      projectFindPipeline dbBase "fakeID" =
        (.error (.BadRequestError "invalid_identifier"), [])) ∧
    (isWellFormedId "aaaaaaaaaaaaaaaaaaaaaaaa" = true ∧
      Project.findById dbBase "aaaaaaaaaaaaaaaaaaaaaaaa" = none ∧
      projectFindPipeline dbBase "aaaaaaaaaaaaaaaaaaaaaaaa" =
        (.error (.NotFoundError "project.errors.project_notfound"),
         ["aaaaaaaaaaaaaaaaaaaaaaaa"])) :=
  ⟨⟨by decide, (C8_validator_before_lookup dbBase "fakeID").1 (by decide)⟩,
   ⟨by decide, by decide,
    (C8_validator_before_lookup dbBase "aaaaaaaaaaaaaaaaaaaaaaaa").2
      (by decide) (by decide)⟩⟩

/-- C2: for a principal holding an `owner` assignment at company level and a
project chained under that company, the evaluator grants
`owner_or_manager`-strength actions on the project but denies
`owner`-strength ones; with an explicit project-level `owner` assignment,
`owner` strength is granted; and an assignment on the project alone never
satisfies any strength on the company (whose chain never consults project
levels), so absent a company-level assignment and the `manage` wildcard the
company request is denied `not_a_manager`. -/
theorem C2_company_ownership_subsumption (mgrs : List ManagerAssignment)
    (uid pid cid : String) :
    (∀ mc, findAssignment mgrs "companies" cid uid = some mc → mc.type = "owner" →
      ((findAssignment mgrs "projects" pid uid = none →
        evaluate mgrs uid [⟨"projects", pid⟩, ⟨"companies", cid⟩]
          .owner_or_manager false = .ok () ∧
        evaluate mgrs uid [⟨"projects", pid⟩, ⟨"companies", cid⟩]
          .owner false =
          .error (.ForbiddenError "insufficient_assignment_strength")) ∧
      (∀ mp, findAssignment mgrs "projects" pid uid = some mp → mp.type = "owner" →
        evaluate mgrs uid [⟨"projects", pid⟩, ⟨"companies", cid⟩]
          .owner false = .ok ()))) ∧
    (findAssignment mgrs "companies" cid uid = none →
      ∀ s, evaluate mgrs uid [⟨"companies", cid⟩] s false =
        .error (.ForbiddenError "not_a_manager")) := by
  simp only [findAssignment]
  constructor
  · intro mc hmc htyc
    constructor
    · intro hnop
      unfold evaluate evalLevels evalLevels
      simp only [hnop, hmc, htyc, levelSatisfies]
      constructor <;> rfl
    · intro mp hmp htyp
      unfold evaluate evalLevels
      simp only [hmp, htyp, levelSatisfies]
      rfl
  · intro hnoc s
    unfold evaluate evalLevels
    simp only [hnoc]
    rfl

theorem C2_company_ownership_subsumption_witness :
    (evaluate [{ entity := "companies", entity_id := "c1", user_id := "u2",
                 type := "owner", created_by := "u1" }] "u2"
       [⟨"projects", "p1"⟩, ⟨"companies", "c1"⟩] .owner_or_manager false = .ok () ∧
     evaluate [{ entity := "companies", entity_id := "c1", user_id := "u2",
                 type := "owner", created_by := "u1" }] "u2"
       [⟨"projects", "p1"⟩, ⟨"companies", "c1"⟩] .owner false =
       .error (.ForbiddenError "insufficient_assignment_strength")) ∧
    evaluate [{ entity := "projects", entity_id := "p1", user_id := "u2",
                type := "owner", created_by := "u1" }] "u2"
      [⟨"companies", "c1"⟩] .owner false =
      .error (.ForbiddenError "not_a_manager") :=
  ⟨((C2_company_ownership_subsumption
      [{ entity := "companies", entity_id := "c1", user_id := "u2",
         type := "owner", created_by := "u1" }] "u2" "p1" "c1").1
      { entity := "companies", entity_id := "c1", user_id := "u2",
        type := "owner", created_by := "u1" } (by decide) rfl).1 (by decide),
   (C2_company_ownership_subsumption
      [{ entity := "projects", entity_id := "p1", user_id := "u2",
         type := "owner", created_by := "u1" }] "u2" "p1" "c1").2
      (by decide) .owner⟩

/-- C9: `ProjectController.create` fails `NotFoundError` when the referenced
company does not exist, `BadRequestError` when it exists but is inactive,
and `AlreadyExists` when a non-deleted project with the same name is already
attached to that company; each failure returns before any document is
created. -/
theorem C9_create_failure_modes (db : DB) (newId cid name uid : String) :
    (Company.findOneById db cid = none →
      projectCreate db newId cid name uid =
        .error (.NotFoundError "company.errors.company_notfound")) ∧
    (∀ c, Company.findOneById db cid = some c → c.is_active = false →
      projectCreate db newId cid name uid =
        .error (.BadRequestError "project.errors.disabled_companey_create_project_error")) ∧
    (∀ c dup, Company.findOneById db cid = some c → c.is_active = true →
      db.projects.find? (fun q =>
        q.name == name && q.company_id == c.id && !q.deleted) = some dup →
      projectCreate db newId cid name uid =
        .error (.AlreadyExists "project.errors.project_already_attached_company")) := by
  refine ⟨?_, ?_, ?_⟩
  · intro h
    unfold projectCreate
    rw [h]
  · intro c hc hia
    unfold projectCreate
    rw [hc]
    simp [hia]
  · intro c dup hc hia hdup
    unfold projectCreate
    rw [hc]
    simp [hia, hdup]

theorem C9_create_failure_modes_witness :
    projectCreate dbNoCompany "p9" "c1" "alpha" "u1" =
      .error (.NotFoundError "company.errors.company_notfound") ∧
    projectCreate dbInactiveCompany "p9" "c1" "alpha" "u1" =
      .error (.BadRequestError "project.errors.disabled_companey_create_project_error") ∧
    projectCreate dbBase "p9" "c1" "alpha" "u1" =
      .error (.AlreadyExists "project.errors.project_already_attached_company") :=
  ⟨(C9_create_failure_modes dbNoCompany "p9" "c1" "alpha" "u1").1 (by decide),
   (C9_create_failure_modes dbInactiveCompany "p9" "c1" "alpha" "u1").2.1
     { id := "c1", is_active := false, deleted := false } (by decide) rfl,
   (C9_create_failure_modes dbBase "p9" "c1" "alpha" "u1").2.2
     fixtureCompany fixtureProject (by decide) rfl (by decide)⟩

/-- C10: activating an already-active project and deactivating an
already-inactive one both fail `BadRequestError` (no state change, since
the handler throws before any write); on success the resulting store is
exactly the old one with that project saved back with only `is_active`
flipped — companies, managers, users and every other project field are
untouched. -/
theorem C10_activation_toggle (db : DB) (pid : String) (p : Project)
    (hp : Project.findById db pid = some p) :
    (p.is_active = true →
      projectActive db pid =
        .error (.BadRequestError "project.errors.project_activated_alredy")) ∧
    (p.is_active = false →
      projectDeActive db pid =
        .error (.BadRequestError "project.errors.project_deactivated_alredy")) ∧
    (p.is_active = false →
      projectActive db pid =
        .ok (saveProject db { p with is_active := true },
             [.dbWrite "project.save", .emit "ACTIVE"])) ∧
    (p.is_active = true →
      projectDeActive db pid =
        .ok (saveProject db { p with is_active := false },
             [.dbWrite "project.save", .emit "DEACTIVE"])) := by
  refine ⟨?_, ?_, ?_, ?_⟩ <;> intro h
  · unfold projectActive
    rw [hp]
    simp [h]
  · unfold projectDeActive
    rw [hp]
    simp [h]
  · unfold projectActive
    rw [hp]
    simp [h]
  · unfold projectDeActive
    rw [hp]
    simp [h]

theorem C10_activation_toggle_witness :
    projectActive dbBase "p1" =
      .error (.BadRequestError "project.errors.project_activated_alredy") ∧
    projectDeActive dbBase "p1" =
      .ok (saveProject dbBase { fixtureProject with is_active := false },
           [.dbWrite "project.save", .emit "DEACTIVE"]) :=
  ⟨(C10_activation_toggle dbBase "p1" fixtureProject (by decide)).1 rfl,
   (C10_activation_toggle dbBase "p1" fixtureProject (by decide)).2.2.2 rfl⟩

/-- C4 counterexample: with an assignment already present for
`(projects, p1, u2)`, a second assign request fails with
`BadRequestError` — not with the `AlreadyExistsError` class the claim
states (the controller reserves `AlreadyExists` for duplicate project
names and throws `BadRequestError` here, project.controller.js line 202). -/
theorem C4_counterexample_duplicate_assign_not_already_exists :
    (Manager.findOne dbWithManager "projects" "p1" "u2").isSome = true ∧
    projectSetManager dbWithManager "p1" "u2" "u1" "owner" =
      .error (.BadRequestError "project.errors.the_user_is_currently_an_manager_for_project") ∧
    isAlreadyExistsError (projectSetManager dbWithManager "p1" "u2" "u1" "owner") = false :=
  ⟨rfl, rfl, rfl⟩

/-- C4 amended: an assign on a triple that already has an assignment always
fails with `BadRequestError` (message
`the_user_is_currently_an_manager_for_project`), regardless of the schema
default type of the would-be document (the request carries no type at all),
and the handler throws before any write, so the store is unchanged. -/
theorem C4_amended_duplicate_assign_rejected (db : DB)
    (pid uid rid dty : String) (p : Project) (m : ManagerAssignment)
    (hp : Project.findById db pid = some p)
    (hu : User.findById db uid = true)
    (hm : Manager.findOne db "projects" p.id uid = some m) :
    projectSetManager db pid uid rid dty =
      .error (.BadRequestError "project.errors.the_user_is_currently_an_manager_for_project") := by
  unfold projectSetManager
  rw [hp]
  simp [hu, hm]

theorem C4_amended_duplicate_assign_rejected_witness :
    projectSetManager dbWithManager "p1" "u2" "u1" "manager" =
      .error (.BadRequestError "project.errors.the_user_is_currently_an_manager_for_project") :=
  C4_amended_duplicate_assign_rejected dbWithManager "p1" "u2" "u1" "manager"
    fixtureProject
    { entity := "projects", entity_id := "p1", user_id := "u2",
      type := "manager", created_by := "u1" }
    (by decide) (by decide) (by decide)

/-- C5 counterexample: unassign on a triple with no existing assignment
fails with `BadRequestError`, not with the `NotFoundError` class the claim
states (project.controller.js line 236). -/
theorem C5_counterexample_missing_assignment_not_notfound :
    Manager.findOne dbBase "projects" "p1" "u2" = none ∧
    projectDeleteManager dbBase "p1" "u2" "u1" =
      .error (.BadRequestError "project.errors.the_user_is_not_an_manager_for_project") ∧
    isNotFoundError (projectDeleteManager dbBase "p1" "u2" "u1") = false :=
  ⟨rfl, rfl, rfl⟩

/-- C5 amended: unassign on a triple with no existing assignment fails with
`BadRequestError` (message `the_user_is_not_an_manager_for_project`); the
handler throws before any write, so nothing changes. -/
theorem C5_amended_missing_assignment_rejected (db : DB)
    (pid uid rid : String) (p : Project)
    (hp : Project.findById db pid = some p)
    (hu : User.findById db uid = true)
    (hm : Manager.findOne db "projects" p.id uid = none) :
    projectDeleteManager db pid uid rid =
      .error (.BadRequestError "project.errors.the_user_is_not_an_manager_for_project") := by
  unfold projectDeleteManager
  rw [hp]
  simp [hu, hm]

theorem C5_amended_missing_assignment_rejected_witness :
    projectDeleteManager dbBase "p1" "u2" "u1" =
      .error (.BadRequestError "project.errors.the_user_is_not_an_manager_for_project") :=
  C5_amended_missing_assignment_rejected dbBase "p1" "u2" "u1" fixtureProject
    (by decide) (by decide) (by decide)

/-- C3 counterexample: project `p1` has TWO owner assignments, so the target
owner assignment of `u2` is not the sole owner — the claim says it "is
removed successfully" — yet `deleteManager` rejects it with
`BadRequestError` (`the_owner_manager_cannot_be_deleted`): the code refuses
to remove ANY owner assignment, sole or not
(project.controller.js line 237). -/
theorem C3_counterexample_nonsole_owner_removal_rejected :
    (dbTwoOwners.managers.filter (fun m =>
      m.entity == "projects" && m.entity_id == "p1" && m.type == "owner")).length = 2 ∧
    (Manager.findOne dbTwoOwners "projects" "p1" "u2").map (fun m => m.type) =
      some "owner" ∧
    projectDeleteManager dbTwoOwners "p1" "u2" "u1" =
      .error (.BadRequestError "project.errors.the_owner_manager_cannot_be_deleted") :=
  ⟨rfl, rfl, rfl⟩

/-- C3 amended: unassign fails `BadRequestError`
(`the_owner_manager_cannot_be_deleted`) exactly when the target assignment's
type is `owner` — whether or not it is the sole owner of the entity; a
non-owner assignment is removed successfully, and a removal never deletes an
owner assignment, so every owner assignment an entity has is retained. -/
theorem C3_amended_owner_assignments_never_removed (db : DB)
    (pid uid rid : String) (p : Project) (m : ManagerAssignment)
    (hp : Project.findById db pid = some p)
    (hu : User.findById db uid = true)
    (hm : Manager.findOne db "projects" p.id uid = some m) :
    (m.type = "owner" →
      projectDeleteManager db pid uid rid =
        .error (.BadRequestError "project.errors.the_owner_manager_cannot_be_deleted")) ∧
    (m.type ≠ "owner" →
      projectDeleteManager db pid uid rid =
        .ok ({ db with managers := db.managers.eraseP (fun x =>
                x.entity == "projects" && x.entity_id == p.id && x.user_id == uid) },
             [.emit "UNSET_MANAGER", .dbWrite "manager.delete"]) ∧
      ∀ x ∈ db.managers, x.type = "owner" →
        x ∈ db.managers.eraseP (fun x =>
              x.entity == "projects" && x.entity_id == p.id && x.user_id == uid)) := by
  constructor
  · intro hty
    unfold projectDeleteManager
    rw [hp]
    simp [hu, hm, hty]
  · intro hty
    refine ⟨?_, ?_⟩
    · unfold projectDeleteManager
      rw [hp]
      simp [hu, hm, hty]
    · intro x hx hxty
      have hfind : db.managers.find? (fun x =>
          x.entity == "projects" && x.entity_id == p.id && x.user_id == uid) = some m := hm
      rcases mem_eraseP_or_eq_of_find? hfind x hx with hin | heq
      · exact hin
      · exact absurd (heq ▸ hxty) hty

theorem C3_amended_owner_assignments_never_removed_witness :
    projectDeleteManager dbWithManager "p1" "u2" "u1" =
      .ok ({ dbWithManager with managers := dbWithManager.managers.eraseP (fun x =>
              x.entity == "projects" && x.entity_id == "p1" && x.user_id == "u2") },
           [.emit "UNSET_MANAGER", .dbWrite "manager.delete"]) :=
  ((C3_amended_owner_assignments_never_removed dbWithManager "p1" "u2" "u1"
      fixtureProject
      { entity := "projects", entity_id := "p1", user_id := "u2",
        type := "manager", created_by := "u1" }
      (by decide) (by decide) (by decide)).2 (by decide)).1

/-- C7: in `deleteManager` the `UNSET_MANAGER` domain event is emitted
BEFORE the assignment deletion is awaited (project.controller.js lines
239–240) — the effect trace of a successful unassign is
`[emit, dbWrite]` — whereas the sibling assign path `manager` emits
`SET_MANAGER` only after `Manager.create` has completed
(`[dbWrite, emit]`, lines 204–206). -/
theorem C7_unset_event_emitted_before_delete :
    projectDeleteManager dbWithManager "p1" "u2" "u1" =
      .ok ({ companies := [fixtureCompany], projects := [fixtureProject],
             managers := [], users := ["u1", "u2"] },
           [.emit "UNSET_MANAGER", .dbWrite "manager.delete"]) ∧
    projectSetManager dbBase "p1" "u2" "u1" "manager" =
      .ok (dbWithManager, [.dbWrite "Manager.create", .emit "SET_MANAGER"]) :=
  ⟨rfl, rfl⟩

/-- C6: round-trip of the assignment store through the controller — after a
successful assign, the composite-key lookup returns an assignment whose
entity, entity id, user id and type are exactly the values just written
(the type being the schema default the write used); after a successful
unassign of that triple, the lookup returns none. -/
theorem C6_assign_find_roundtrip (db : DB) (pid uid rid dty : String)
    (db' : DB) (tr : List Op)
    (h : projectSetManager db pid uid rid dty = .ok (db', tr)) :
    Manager.findOne db' "projects" pid uid =
      some { entity := "projects", entity_id := pid, user_id := uid,
             type := dty, created_by := rid } ∧
    (∀ rid2 db'' tr2, projectDeleteManager db' pid uid rid2 = .ok (db'', tr2) →
      Manager.findOne db'' "projects" pid uid = none) := by
  unfold projectSetManager at h
  cases hp : Project.findById db pid with
  | none => rw [hp] at h; exact absurd h (by simp)
  | some p =>
    rw [hp] at h
    dsimp only at h
    cases hu : User.findById db uid with
    | false => rw [hu] at h; simp at h
    | true =>
      rw [hu] at h
      simp only [Bool.not_true, Bool.false_eq_true, if_false] at h
      cases hm : Manager.findOne db "projects" p.id uid with
      | some m => rw [hm] at h; simp at h
      | none =>
        rw [hm] at h
        simp only [Except.ok.injEq, Prod.mk.injEq] at h
        obtain ⟨hdb, _⟩ := h
        have hpid : p.id = pid := (findById_spec hp).1
        subst hpid
        subst hdb
        constructor
        · simp [Manager.findOne]
        · intro rid2 db'' tr2 h2
          unfold projectDeleteManager at h2
          have hp2 : Project.findById
              { db with managers :=
                { entity := "projects", entity_id := p.id, user_id := uid,
                  type := dty, created_by := rid } :: db.managers } p.id = some p := hp
          rw [hp2] at h2
          dsimp only at h2
          have hu2 : User.findById
              { db with managers :=
                { entity := "projects", entity_id := p.id, user_id := uid,
                  type := dty, created_by := rid } :: db.managers } uid = true := hu
          rw [hu2] at h2
          simp only [Bool.not_true, Bool.false_eq_true, if_false] at h2
          have hm2 : Manager.findOne
              { db with managers :=
                { entity := "projects", entity_id := p.id, user_id := uid,
                  type := dty, created_by := rid } :: db.managers }
              "projects" p.id uid =
              some { entity := "projects", entity_id := p.id, user_id := uid,
                     type := dty, created_by := rid } := by
            simp [Manager.findOne]
          rw [hm2] at h2
          dsimp only at h2
          cases hdty : dty == "owner" with
          | true => rw [hdty] at h2; simp at h2
          | false =>
            rw [hdty] at h2
            simp only [Bool.false_eq_true, if_false, Except.ok.injEq,
              Prod.mk.injEq] at h2
            obtain ⟨hdb2, _⟩ := h2
            subst hdb2
            have herase : (ManagerAssignment.mk "projects" p.id uid dty rid ::
                db.managers).eraseP (fun x =>
                x.entity == "projects" && x.entity_id == p.id && x.user_id == uid) =
                db.managers :=
              List.eraseP_cons_of_pos (by simp)
            rw [herase]
            exact hm

theorem C6_assign_find_roundtrip_witness :
    Manager.findOne dbWithManager "projects" "p1" "u2" =
      some { entity := "projects", entity_id := "p1", user_id := "u2",
             type := "manager", created_by := "u1" } ∧
    Manager.findOne dbBase "projects" "p1" "u2" = none := by
  have h := C6_assign_find_roundtrip dbBase "p1" "u2" "u1" "manager" dbWithManager
    [.dbWrite "Manager.create", .emit "SET_MANAGER"] rfl
  exact ⟨h.1, h.2 "u1" dbBase [.emit "UNSET_MANAGER", .dbWrite "manager.delete"] rfl⟩
